import Mathlib

/-!
# WIRED message-routing and instance-lifecycle supervisor: a shallow embedding

This file embeds the core of the `wired-money` repository in Lean 4 and proves
the behavioural properties stated in its specification.

Embedded source units:
* `src/mcp/wired-gateway/index.js` — per-channel message queues with at most one
  registered waiter (`messageQueues` / `waitingResolvers`), the `messageCreate`
  delivery handler, the `wait_for_message` tool handler with its timeout timer,
  and the `send_reply` chunking loop.
* `src/core/daemon.js` — orphaned-state-file cleanup and instance-slot selection
  (`cleanupOrphanedStateFiles` / `findAvailableInstance` / `saveInstanceState`),
  and the restart-on-exit handlers for the two supervised children.

Each channel kind (`tars` / `romilly`) owns an independent queue/waiter/timer
cell; the gateway model below describes one such cell.  Wait calls are
identified by natural-number ids so that a resolution can be attributed to the
call it settles.
-/

namespace Wired

/-- The inbound message record built by the gateway's `messageCreate` handler
(index.js lines 93–100). -/
structure MessageData where
  user : String
  userId : String
  content : String
  channel : String
  channelId : String
  timestamp : String
deriving DecidableEq, Repr

/-- The value a `wait_for_message` call settles with: either a delivered
message or the distinguished timeout signal (`{timeout: true}`). -/
inductive WaitResult where
  | msg (m : MessageData)
  | timeoutSignal
deriving DecidableEq, Repr

/-- The state of one channel kind's queue cell together with the bookkeeping
needed to talk about outcomes of individual wait calls:

* `pending` — `messageQueues[kind]` (index.js line 41);
* `waiter` — `waitingResolvers[kind]` (line 45), holding the id of the wait
  call whose resolver is currently registered, or `none`;
* `timers` — ids of wait calls whose timeout `setTimeout` callback (lines
  232–237) has been scheduled but has not fired yet;
* `resolved` — the settled wait calls in settlement order, each with the value
  its promise settled with (a promise settles at most once, so a second
  `resolve` of the same call is a no-op). -/
structure GwState where
  pending : List MessageData
  waiter : Option Nat
  timers : List Nat
  resolved : List (Nat × WaitResult)
deriving DecidableEq, Repr

/-- Whether wait call `w` has already settled. -/
def isResolved (resolved : List (Nat × WaitResult)) (w : Nat) : Bool :=
  resolved.any (fun p => p.1 == w)

/-- Settle wait call `w` with value `r`; a no-op if `w` already settled
(JavaScript promise semantics: only the first `resolve` counts). -/
def resolveWith (s : GwState) (w : Nat) (r : WaitResult) : GwState :=
  if isResolved s.resolved w then s
  else { s with resolved := s.resolved ++ [(w, r)] }

/-- Events processed by the gateway's single-threaded event loop, restricted to
one channel kind:

* `deliver m` — the `messageCreate` handler routes an inbound message to this
  kind (index.js lines 114–120);
* `wait w t` — the `wait_for_message` tool handler runs for call `w` with
  `timeout_seconds = t` (lines 210–248);
* `fire w` — the timeout `setTimeout` callback scheduled by call `w` fires
  (lines 232–237). -/
inductive Ev where
  | deliver (m : MessageData)
  | wait (w : Nat) (timeoutSeconds : Nat)
  | fire (w : Nat)
deriving DecidableEq, Repr

/-- One atomic event-loop turn.

`deliver`: if a resolver is registered, clear it and resolve that wait with the
message; otherwise push onto the queue (index.js lines 114–120).

`wait`: if the queue is non-empty, shift the oldest message and return it at
once — the call settles immediately and no resolver is registered (lines
215–219).  Otherwise register this call's resolver, overwriting any previous
registration (lines 226–228), and, when `timeout_seconds > 0`, schedule the
timeout callback (lines 230–238).

`fire`: the callback runs only if it was scheduled and has not run yet.  It
checks whether *any* resolver is registered — not whether the registered one
belongs to the call that scheduled it — and if so clears the slot and resolves
its own call with the timeout signal (lines 232–237). -/
def step (s : GwState) (e : Ev) : GwState :=
  match e with
  | .deliver m =>
      match s.waiter with
      | some w => resolveWith { s with waiter := none } w (.msg m)
      | none => { s with pending := s.pending ++ [m] }
  | .wait w timeoutSeconds =>
      match s.pending with
      | m :: rest =>
          { s with pending := rest, resolved := s.resolved ++ [(w, .msg m)] }
      | [] =>
          { s with waiter := some w,
                   timers := if 0 < timeoutSeconds then s.timers ++ [w] else s.timers }
  | .fire w =>
      if w ∈ s.timers then
        let s' := { s with timers := s.timers.erase w }
        match s'.waiter with
        | some _ => resolveWith { s' with waiter := none } w .timeoutSignal
        | none => s'
      else s

/-- Run a sequence of event-loop turns from a given state. -/
def runFrom (evs : List Ev) (s : GwState) : GwState :=
  evs.foldl step s

/-- The gateway's startup state: empty queue, no resolver (index.js lines
41–48). -/
def initState : GwState :=
  { pending := [], waiter := none, timers := [], resolved := [] }

/-- Run a sequence of event-loop turns from gateway startup. -/
def run (evs : List Ev) : GwState :=
  runFrom evs initState

/-- `n` consecutive `wait_for_message` calls with ids `k, k+1, …, k+n-1` and
`timeout_seconds = 0`. -/
def waitCallsFrom (k : Nat) : Nat → List Ev
  | 0 => []
  | n + 1 => .wait k 0 :: waitCallsFrom (k + 1) n

/-- The settlement records produced when calls `k, k+1, …` receive the listed
messages in order. -/
def msgResolutions (k : Nat) : List MessageData → List (Nat × WaitResult)
  | [] => []
  | m :: rest => (k, .msg m) :: msgResolutions (k + 1) rest

/-! ## send_reply chunking (index.js lines 266–277) -/

/-- The chunk-splitting loop of `send_reply`: repeatedly slice off the first
1900 units of the remaining text until none is left.  The resulting list is
the transcript of `targetChannel.send` calls, in sequential send order (the
loop awaits each send before starting the next). -/
def chunkMessage (message : List Char) : List (List Char) :=
  if h : message = [] then []
  else message.take 1900 :: chunkMessage (message.drop 1900)
termination_by message.length
decreasing_by
  simp only [List.length_drop]
  exact Nat.sub_lt (List.length_pos.mpr h) (by norm_num)

/-! ## Instance registry (daemon.js lines 78–122, 169–186) -/

/-- A durable state-file record `wired-instance-<slot>.json`: the slot number
read from the file name, and `some pid` when the JSON body parses (recording
the owner daemon's pid), `none` when the content is corrupt. -/
structure InstanceStateFile where
  slot : Nat
  content : Option Nat
deriving DecidableEq, Repr

/-- A record survives the startup scan iff its body parses and the recorded
pid is still alive (`process.kill(pid, 0)` succeeds). -/
def survivesCleanup (alive : Nat → Bool) (f : InstanceStateFile) : Bool :=
  match f.content with
  | some pid => alive pid
  | none => false

/-- `cleanupOrphanedStateFiles` (daemon.js lines 78–101): delete every record
whose owner pid is dead or whose content fails to parse; keep the rest. -/
def cleanupOrphanedStateFiles (alive : Nat → Bool)
    (files : List InstanceStateFile) : List InstanceStateFile :=
  files.filter (survivesCleanup alive)

/-- The `let n = 1; while (activeSlots.has(n)) n++;` loop of
`findAvailableInstance` (daemon.js lines 117–118).  The fuel argument bounds
the number of loop iterations; `slots.length + 1` iterations always suffice,
since the loop inspects pairwise distinct candidates and `slots` has at most
`slots.length` members. -/
def lowestFreeAux (slots : List Nat) : Nat → Nat → Nat
  | 0, n => n
  | fuel + 1, n => if n ∈ slots then lowestFreeAux slots fuel (n + 1) else n

/-- `findAvailableInstance` (daemon.js lines 104–122): run the cleanup scan,
collect the slot numbers of the remaining records, and pick the lowest
positive integer not among them.  Returns the chosen slot together with the
record store as the scan left it. -/
def findAvailableInstance (alive : Nat → Bool)
    (files : List InstanceStateFile) : Nat × List InstanceStateFile :=
  let remaining := cleanupOrphanedStateFiles alive files
  let activeSlots := remaining.map (·.slot)
  (lowestFreeAux activeSlots (activeSlots.length + 1) 1, remaining)

/-- `saveInstanceState` (daemon.js lines 169–186): persist the record for the
chosen slot, carrying the daemon's own pid. -/
def saveInstanceState (selfPid : Nat) (n : Nat)
    (files : List InstanceStateFile) : List InstanceStateFile :=
  files ++ [⟨n, some selfPid⟩]

/-- The spec's `acquireSlot`: the startup sequence `findAvailableInstance`
(which begins with `cleanupOrphanedStateFiles`) followed by
`saveInstanceState` for the chosen slot (daemon.js lines 104–122 and the
`saveInstanceState` call in `main`). -/
def acquireSlot (alive : Nat → Bool) (selfPid : Nat)
    (files : List InstanceStateFile) : Nat × List InstanceStateFile :=
  let r := findAvailableInstance alive files
  (r.1, saveInstanceState selfPid r.1 r.2)

/-! ## Child-process supervision (daemon.js lines 286–335, 354–383) -/

/-- Liveness of a supervised child. -/
inductive ChildLiveness where
  | running
  | exited (code : Int)
deriving DecidableEq, Repr

/-- A supervised child handle; `restartCount` counts spawn attempts performed
for this child (the spec's `ChildProcessHandle.restartCount`). -/
structure ChildProcessHandle where
  liveness : ChildLiveness
  restartCount : Nat
deriving DecidableEq, Repr

/-- Daemon supervision state: the two child handles, the `sessionActive` flag,
and the pending `setTimeout` restart timers (delays in milliseconds) for each
child, in scheduling order. -/
structure DaemonState where
  claude : ChildProcessHandle
  romilly : ChildProcessHandle
  sessionActive : Bool
  claudeRestartTimers : List Nat
  romillyRestartTimers : List Nat
deriving DecidableEq, Repr

/-- The fixed restart delay used by both `close`/`exit` handlers. -/
def RESTART_DELAY_MS : Nat := 5000

/-- The `claudeProcess.on('close', …)` handler (daemon.js lines 325–329):
record the exit, drop `sessionActive`, and schedule exactly one
`setTimeout(spawnClaude, 5000)`. -/
def onClaudeClose (code : Int) (s : DaemonState) : DaemonState :=
  { s with claude := { s.claude with liveness := .exited code },
           sessionActive := false,
           claudeRestartTimers := s.claudeRestartTimers ++ [RESTART_DELAY_MS] }

/-- The `romillyProcess.on('exit', …)` handler (daemon.js lines 368–371):
record the exit and schedule exactly one `setTimeout(spawnRomilly, 5000)`. -/
def onRomillyExit (code : Int) (s : DaemonState) : DaemonState :=
  { s with romilly := { s.romilly with liveness := .exited code },
           romillyRestartTimers := s.romillyRestartTimers ++ [RESTART_DELAY_MS] }

/-- `spawnClaude` (daemon.js lines 286–335) as it affects the child handle: a
new spawn attempt for the primary child. -/
def spawnClaude (s : DaemonState) : DaemonState :=
  { s with claude := { liveness := .running,
                       restartCount := s.claude.restartCount + 1 } }

/-- `spawnRomilly` (daemon.js lines 354–383) as it affects the child handle. -/
def spawnRomilly (s : DaemonState) : DaemonState :=
  { s with romilly := { liveness := .running,
                        restartCount := s.romilly.restartCount + 1 } }

/-- The scheduled restart timer for the primary child fires: the oldest
pending timer is consumed and `spawnClaude` runs. -/
def fireClaudeRestartTimer (s : DaemonState) : DaemonState :=
  spawnClaude { s with claudeRestartTimers := s.claudeRestartTimers.tail }

/-- The scheduled restart timer for the overwatcher fires. -/
def fireRomillyRestartTimer (s : DaemonState) : DaemonState :=
  spawnRomilly { s with romillyRestartTimers := s.romillyRestartTimers.tail }

/-- Two concrete inbound messages used for witnesses. -/
def mA : MessageData :=
  ⟨"lain", "7", "hello tars", "1-tars", "c100", "2026-01-01T00:00:00Z"⟩

/-- A second concrete inbound message. -/
def mB : MessageData :=
  ⟨"lain", "7", "are you there", "1-tars", "c100", "2026-01-01T00:00:05Z"⟩

/-!
## Helper lemmas
-/

@[simp]
theorem resolveWith_waiter (s : GwState) (w : Nat) (r : WaitResult) :
    (resolveWith s w r).waiter = s.waiter := by
  rw [resolveWith]; split <;> rfl

@[simp]
theorem resolveWith_pending (s : GwState) (w : Nat) (r : WaitResult) :
    (resolveWith s w r).pending = s.pending := by
  rw [resolveWith]; split <;> rfl

@[simp]
theorem resolveWith_timers (s : GwState) (w : Nat) (r : WaitResult) :
    (resolveWith s w r).timers = s.timers := by
  rw [resolveWith]; split <;> rfl

theorem isResolved_append_single (l : List (Nat × WaitResult)) (v : Nat)
    (r : WaitResult) (w : Nat) :
    isResolved (l ++ [(v, r)]) w = (isResolved l w || v == w) := by
  simp [isResolved]

theorem resolveWith_resolved_of_ne (s : GwState) (v w : Nat) (r : WaitResult)
    (h : isResolved s.resolved w = false) :
    isResolved (resolveWith s v r).resolved w = (isResolved s.resolved w || v == w) := by
  rw [resolveWith]
  split
  · next hv =>
    have hvw : (v == w) = false := by
      rcases Nat.decEq v w with hne | rfl
      · simpa using hne
      · rw [hv] at h; exact absurd h (by simp)
    simp [hvw]
  · exact isResolved_append_single s.resolved v r w

theorem runFrom_nil (s : GwState) : runFrom [] s = s := rfl

theorem runFrom_cons (e : Ev) (evs : List Ev) (s : GwState) :
    runFrom (e :: evs) s = runFrom evs (step s e) := by
  simp [runFrom]

theorem runFrom_append (a b : List Ev) (s : GwState) :
    runFrom (a ++ b) s = runFrom b (runFrom a s) := by
  simp [runFrom, List.foldl_append]

/-- Delivering a batch of messages while no resolver is registered appends
them to the queue in arrival order (index.js lines 114–120, else-branch). -/
theorem runFrom_delivers (ms : List MessageData) :
    ∀ s : GwState, s.waiter = none →
      runFrom (ms.map Ev.deliver) s = { s with pending := s.pending ++ ms } := by
  induction ms with
  | nil => intro s _; simp [runFrom]
  | cons m rest ih =>
    intro s hw
    have hstep : step s (.deliver m) = { s with pending := s.pending ++ [m] } := by
      simp [step, hw]
    rw [List.map_cons, runFrom_cons, hstep,
      ih { s with pending := s.pending ++ [m] } hw]
    simp

/-- A run of `wait_for_message` calls against a queue holding exactly the
listed messages settles call `k + i` with the `i`-th message and drains the
queue (index.js lines 215–219 applied repeatedly). -/
theorem runFrom_drains (ms : List MessageData) :
    ∀ (s : GwState) (k : Nat), s.pending = ms →
      runFrom (waitCallsFrom k ms.length) s
        = { s with pending := [],
                   resolved := s.resolved ++ msgResolutions k ms } := by
  induction ms with
  | nil =>
    intro s k hp
    simp [waitCallsFrom, runFrom, msgResolutions, ← hp]
  | cons m rest ih =>
    intro s k hp
    have hstep : step s (.wait k 0)
        = { s with pending := rest, resolved := s.resolved ++ [(k, .msg m)] } := by
      simp [step, hp]
    rw [List.length_cons, waitCallsFrom, runFrom_cons, hstep,
      ih { s with pending := rest, resolved := s.resolved ++ [(k, .msg m)] } (k + 1) rfl]
    simp [msgResolutions]

/-- Every event-loop turn preserves the `pending`-nonempty-implies-no-waiter
invariant. -/
theorem step_preserves_inv (s : GwState) (e : Ev)
    (h : s.pending ≠ [] → s.waiter = none) :
    (step s e).pending ≠ [] → (step s e).waiter = none := by
  cases e with
  | deliver m =>
    cases hw : s.waiter with
    | some w => simp [step, hw]
    | none => simp [step, hw]
  | wait w t =>
    cases hp : s.pending with
    | nil => simp [step, hp]
    | cons m rest =>
      simp only [step, hp]
      intro hne
      exact h (by simp [hp])
  | fire w =>
    by_cases hmem : w ∈ s.timers
    · cases hw : s.waiter with
      | some v => simp [step, hmem, hw]
      | none => simp [step, hmem, hw]
    · simpa [step, hmem] using h

/-- A wait call that is unresolved, not the registered waiter, and has no
pending timer stays that way across any turn that is not a fresh
`wait_for_message` call with its id. -/
theorem step_preserves_unresolved (s : GwState) (e : Ev) (w : Nat)
    (hres : isResolved s.resolved w = false)
    (hw : s.waiter ≠ some w) (ht : w ∉ s.timers)
    (hev : ∀ t, e ≠ Ev.wait w t) :
    isResolved (step s e).resolved w = false ∧
    (step s e).waiter ≠ some w ∧ w ∉ (step s e).timers := by
  cases e with
  | deliver m =>
    cases hwt : s.waiter with
    | some v =>
      have hvw : v ≠ w := fun hvw => hw (by rw [hwt, hvw])
      refine ⟨?_, ?_, ?_⟩
      · rw [show (step s (.deliver m)).resolved
            = (resolveWith { s with waiter := none } v (.msg m)).resolved by
              simp [step, hwt]]
        rw [resolveWith_resolved_of_ne _ _ _ _ (by simpa using hres), hres]
        simpa using hvw
      · simp [step, hwt]
      · simpa [step, hwt] using ht
    | none =>
      exact ⟨by simpa [step, hwt] using hres,
        by simpa [step, hwt] using hw,
        by simpa [step, hwt] using ht⟩
  | wait v t =>
    have hvw : v ≠ w := fun hvw => hev t (by rw [hvw])
    cases hp : s.pending with
    | cons m rest =>
      refine ⟨?_, ?_, ?_⟩
      · rw [show (step s (.wait v t)).resolved
            = s.resolved ++ [(v, .msg m)] by simp [step, hp]]
        rw [isResolved_append_single, hres]
        simpa using hvw
      · simpa [step, hp] using hw
      · simpa [step, hp] using ht
    | nil =>
      refine ⟨?_, ?_, ?_⟩
      · simpa [step, hp] using hres
      · simp only [step, hp]
        intro hc
        exact hvw (Option.some_injective _ hc)
      · simp only [step, hp]
        split
        · simp only [List.mem_append, List.mem_singleton]
          rintro (hc | hc)
          · exact ht hc
          · exact hvw hc.symm
        · exact ht
  | fire v =>
    by_cases hmem : v ∈ s.timers
    · have hvw : v ≠ w := fun hvw => ht (by rw [← hvw]; exact hmem)
      cases hwt : s.waiter with
      | some u =>
        refine ⟨?_, ?_, ?_⟩
        · rw [show (step s (.fire v)).resolved
              = (resolveWith { s with timers := s.timers.erase v, waiter := none }
                  v .timeoutSignal).resolved by simp [step, hmem, hwt]]
          rw [resolveWith_resolved_of_ne _ _ _ _ (by simpa using hres), hres]
          simpa using hvw
        · simp [step, hmem, hwt]
        · simp only [step, hmem, if_pos, hwt, resolveWith_timers]
          exact fun hc => ht (List.mem_of_mem_erase hc)
      | none =>
        refine ⟨?_, ?_, ?_⟩
        · simpa [step, hmem, hwt] using hres
        · simpa [step, hmem, hwt] using hw
        · simp only [step, hmem, if_pos, hwt]
          exact fun hc => ht (List.mem_of_mem_erase hc)
    · exact ⟨by simpa [step, hmem] using hres,
        by simpa [step, hmem] using hw,
        by simpa [step, hmem] using ht⟩

/-- Iterated form of `step_preserves_unresolved`. -/
theorem runFrom_preserves_unresolved (evs : List Ev) :
    ∀ (s : GwState) (w : Nat), isResolved s.resolved w = false →
      s.waiter ≠ some w → w ∉ s.timers →
      (∀ t, Ev.wait w t ∉ evs) →
      isResolved (runFrom evs s).resolved w = false := by
  induction evs with
  | nil => intro s w hres _ _ _; simpa [runFrom] using hres
  | cons e rest ih =>
    intro s w hres hw ht hev
    rw [runFrom_cons]
    have hstep := step_preserves_unresolved s e w hres hw ht
      (fun t hc => hev t (by rw [hc]; exact List.mem_cons_self _ _))
    exact ih (step s e) w hstep.1 hstep.2.1 hstep.2.2
      (fun t hc => hev t (List.mem_cons_of_mem _ hc))

/-- Concatenating the chunks in send order restores the original text. -/
theorem chunkMessage_join (l : List Char) : (chunkMessage l).flatten = l := by
  induction l using chunkMessage.induct with
  | case1 => simp [chunkMessage]
  | case2 l h ih =>
    rw [chunkMessage]
    simp only [h, dite_false, List.flatten_cons, ih, List.take_append_drop]

/-- Every chunk holds at most 1900 units. -/
theorem chunkMessage_chunk_le (l : List Char) :
    ∀ c ∈ chunkMessage l, c.length ≤ 1900 := by
  induction l using chunkMessage.induct with
  | case1 => simp [chunkMessage]
  | case2 l h ih =>
    rw [chunkMessage]
    simp only [h, dite_false, List.mem_cons]
    rintro c (rfl | hc)
    · simpa using Nat.min_le_left 1900 l.length
    · exact ih c hc

/-- The number of chunks is the length of the text divided by 1900, rounded
up. -/
theorem chunkMessage_length (l : List Char) :
    (chunkMessage l).length = (l.length + 1899) / 1900 := by
  induction l using chunkMessage.induct with
  | case1 => simp [chunkMessage]
  | case2 l h ih =>
    rw [chunkMessage]
    simp only [h, dite_false, List.length_cons, ih, List.length_drop]
    rcases Nat.lt_or_ge l.length 1900 with hl | hl
    · have h1 : l.length - 1900 = 0 := by omega
      have h0 : 0 < l.length := List.length_pos.mpr h
      have h2 : (l.length + 1899) / 1900 = 1 := by
        rw [Nat.div_eq_of_lt_le] <;> omega
      rw [h1, h2]
    · have h3 : l.length + 1899 = ((l.length - 1900) + 1899) + 1900 := by omega
      rw [h3, Nat.add_div_right _ (by norm_num)]

/-- Correctness of the slot-search loop: given that some free candidate lies
within the fuel window, the loop stops at a slot that is free, at least the
starting candidate, and minimal (every smaller candidate is taken). -/
theorem lowestFreeAux_spec (slots : List Nat) :
    ∀ fuel n, (∃ m, n ≤ m ∧ m < n + fuel ∧ m ∉ slots) →
      lowestFreeAux slots fuel n ∉ slots ∧
      n ≤ lowestFreeAux slots fuel n ∧
      ∀ k, n ≤ k → k < lowestFreeAux slots fuel n → k ∈ slots := by
  intro fuel
  induction fuel with
  | zero =>
    rintro n ⟨m, h1, h2, _⟩
    omega
  | succ fuel ih =>
    intro n hex
    rw [lowestFreeAux]
    by_cases hn : n ∈ slots
    · rw [if_pos hn]
      obtain ⟨m, h1, h2, h3⟩ := hex
      have hm : n + 1 ≤ m := by
        rcases Nat.eq_or_lt_of_le h1 with rfl | hlt
        · exact absurd hn h3
        · omega
      obtain ⟨ha, hb, hc⟩ := ih (n + 1) ⟨m, hm, by omega, h3⟩
      refine ⟨ha, by omega, ?_⟩
      intro k hk1 hk2
      rcases Nat.eq_or_lt_of_le hk1 with rfl | hlt
      · exact hn
      · exact hc k hlt hk2
    · rw [if_neg hn]
      exact ⟨hn, Nat.le_refl n, fun k hk1 hk2 => absurd (Nat.lt_of_le_of_lt hk1 hk2)
        (Nat.lt_irrefl n)⟩

/-- Pigeonhole fact behind the loop's termination: among the candidates
`1, …, slots.length + 1` at least one is not a member of `slots`. -/
theorem exists_free_candidate (slots : List Nat) :
    ∃ m, 1 ≤ m ∧ m < 1 + (slots.length + 1) ∧ m ∉ slots := by
  by_contra hcon
  push_neg at hcon
  have hsub : Finset.Icc 1 (slots.length + 1) ⊆ slots.toFinset := by
    intro m hm
    rw [Finset.mem_Icc] at hm
    exact List.mem_toFinset.mpr (hcon m hm.1 (by omega))
  have h1 := Finset.card_le_card hsub
  have h2 := slots.toFinset_card_le
  rw [Nat.card_Icc] at h1
  omega

/-!
## Claim theorems
-/

/-- C1: on the startup scan, `acquireSlot` (the composition
`cleanupOrphanedStateFiles` → `findAvailableInstance` → `saveInstanceState`)
first deletes every record whose owner pid is dead or whose content fails to
parse, then returns the lowest positive integer not present among the
surviving records' slot numbers and persists a new record for it; in
particular against records for slots 1 and 3 with slot 1's owner dead and
slot 3's owner alive it returns 1, not 2 or 4. -/
theorem c1_acquireSlot_lowest_free (alive : Nat → Bool) (selfPid : Nat)
    (files : List InstanceStateFile) :
    (acquireSlot alive selfPid files).2
        = cleanupOrphanedStateFiles alive files
            ++ [⟨(acquireSlot alive selfPid files).1, some selfPid⟩] ∧
    1 ≤ (acquireSlot alive selfPid files).1 ∧
    (acquireSlot alive selfPid files).1
        ∉ (cleanupOrphanedStateFiles alive files).map (·.slot) ∧
    (∀ k, 1 ≤ k → k < (acquireSlot alive selfPid files).1 →
        k ∈ (cleanupOrphanedStateFiles alive files).map (·.slot)) ∧
    acquireSlot (fun pid => pid == 200) 300 [⟨1, some 100⟩, ⟨3, some 200⟩]
        = (1, [⟨3, some 200⟩, ⟨1, some 300⟩]) := by
  have hmain := lowestFreeAux_spec
    ((cleanupOrphanedStateFiles alive files).map (·.slot))
    (((cleanupOrphanedStateFiles alive files).map (·.slot)).length + 1) 1
    (exists_free_candidate _)
  exact ⟨rfl, hmain.2.1, hmain.1, hmain.2.2, by decide⟩

/-- Witness for C1 at a concrete store: pid 100 dead, pid 200 alive. -/
theorem c1_acquireSlot_lowest_free_witness :
    (acquireSlot (fun pid => pid == 200) 300
        [⟨1, some 100⟩, ⟨3, some 200⟩]).1 = 1 := by
  have h := (c1_acquireSlot_lowest_free (fun pid => pid == 200) 300
    [⟨1, some 100⟩, ⟨3, some 200⟩]).2.2.2.2
  rw [h]

/-- C2: deliveries made while the queue is empty and no waiter is registered
are returned by subsequent `wait_for_message` calls in exactly the delivery
order, each message exactly once (FIFO). -/
theorem c2_fifo_order (s : GwState) (ms : List MessageData) (k : Nat)
    (hp : s.pending = []) (hw : s.waiter = none) :
    (runFrom (ms.map Ev.deliver ++ waitCallsFrom k ms.length) s).resolved
        = s.resolved ++ msgResolutions k ms ∧
    (runFrom (ms.map Ev.deliver ++ waitCallsFrom k ms.length) s).pending = [] := by
  rw [runFrom_append, runFrom_delivers ms s hw,
    runFrom_drains ms { s with pending := s.pending ++ ms } k (by rw [hp]; rfl)]
  exact ⟨rfl, rfl⟩

/-- Witness for C2: two messages delivered from startup come back in order. -/
theorem c2_fifo_order_witness :
    (run ([Ev.deliver mA, Ev.deliver mB] ++ waitCallsFrom 0 2)).resolved
        = [(0, WaitResult.msg mA), (1, WaitResult.msg mB)] ∧
    (run ([Ev.deliver mA, Ev.deliver mB] ++ waitCallsFrom 0 2)).pending = [] := by
  have h := c2_fifo_order initState [mA, mB] 0 rfl rfl
  simpa [run, initState, msgResolutions] using h

/-- C3: a wait with a positive timeout is resolved by exactly one of the
timeout path and the delivery path.  Whichever acts first clears the waiter
slot; the loser's later action is a no-op on the waiter and the resolution
record (the fired callback only consumes its timer; a late delivery only
queues the message). -/
theorem c3_exactly_one_of_timeout_delivery (s : GwState) (w T : Nat)
    (m : MessageData)
    (hp : s.pending = []) (hw : s.waiter = none) (hT : 0 < T)
    (hfresh : isResolved s.resolved w = false) :
    ((runFrom [.wait w T, .deliver m] s).resolved = s.resolved ++ [(w, .msg m)] ∧
      (runFrom [.wait w T, .deliver m] s).waiter = none ∧
      step (runFrom [.wait w T, .deliver m] s) (.fire w)
        = { runFrom [.wait w T, .deliver m] s with
              timers := (runFrom [.wait w T, .deliver m] s).timers.erase w }) ∧
    ((runFrom [.wait w T, .fire w] s).resolved
          = s.resolved ++ [(w, .timeoutSignal)] ∧
      (runFrom [.wait w T, .fire w] s).waiter = none ∧
      step (runFrom [.wait w T, .fire w] s) (.deliver m)
        = { runFrom [.wait w T, .fire w] s with
              pending := (runFrom [.wait w T, .fire w] s).pending ++ [m] }) := by
  have hs1 : step s (.wait w T)
      = { s with waiter := some w, timers := s.timers ++ [w] } := by
    simp [step, hp, hT]
  constructor
  · have h2 : runFrom [Ev.wait w T, Ev.deliver m] s
        = { s with waiter := none, timers := s.timers ++ [w],
                   resolved := s.resolved ++ [(w, .msg m)] } := by
      rw [runFrom_cons, hs1, runFrom_cons, runFrom_nil]
      simp [step, resolveWith, hfresh]
    rw [h2]
    refine ⟨rfl, rfl, ?_⟩
    simp [step]
  · have h3 : runFrom [Ev.wait w T, Ev.fire w] s
        = { s with waiter := none, timers := (s.timers ++ [w]).erase w,
                   resolved := s.resolved ++ [(w, .timeoutSignal)] } := by
      rw [runFrom_cons, hs1, runFrom_cons, runFrom_nil]
      simp [step, resolveWith, hfresh]
    rw [h3]
    refine ⟨rfl, rfl, ?_⟩
    simp [step]

/-- Witness for C3: the timeout path alone resolves wait 1 from startup. -/
theorem c3_exactly_one_witness :
    (run [Ev.wait 1 5, Ev.fire 1]).resolved = [(1, WaitResult.timeoutSignal)] := by
  have h := (c3_exactly_one_of_timeout_delivery initState 1 5 mA rfl rfl
    (by norm_num) rfl).2.1
  simpa [run, initState] using h

/-- C4: a wait with positive timeout on an empty queue, with no delivery
before the deadline, resolves to the distinguished timeout signal and leaves
the waiter slot unset. -/
theorem c4_timeout_resolution (s : GwState) (w T : Nat)
    (hp : s.pending = []) (hw : s.waiter = none) (hT : 0 < T)
    (hfresh : isResolved s.resolved w = false) :
    (runFrom [.wait w T, .fire w] s).resolved
        = s.resolved ++ [(w, .timeoutSignal)] ∧
    (runFrom [.wait w T, .fire w] s).waiter = none := by
  have hs1 : step s (.wait w T)
      = { s with waiter := some w, timers := s.timers ++ [w] } := by
    simp [step, hp, hT]
  have h3 : runFrom [Ev.wait w T, Ev.fire w] s
      = { s with waiter := none, timers := (s.timers ++ [w]).erase w,
                 resolved := s.resolved ++ [(w, .timeoutSignal)] } := by
    rw [runFrom_cons, hs1, runFrom_cons, runFrom_nil]
    simp [step, resolveWith, hfresh]
  rw [h3]
  exact ⟨rfl, rfl⟩

/-- Witness for C4 at startup with timeout 7. -/
theorem c4_timeout_resolution_witness :
    (run [Ev.wait 0 7, Ev.fire 0]).resolved = [(0, WaitResult.timeoutSignal)] ∧
    (run [Ev.wait 0 7, Ev.fire 0]).waiter = none := by
  have h := c4_timeout_resolution initState 0 7 rfl rfl (by norm_num) rfl
  simpa [run, initState] using h

/-- C5: a second wait on the same channel kind while a waiter is registered
overwrites the first resolver; the next delivery resolves only the second
wait, and the first wait is never resolved by any later event-loop activity
that does not reuse its call id. -/
theorem c5_second_wait_overwrites_first (s : GwState) (w1 w2 : Nat)
    (m : MessageData)
    (hp : s.pending = []) (hw : s.waiter = none) (hne : w1 ≠ w2)
    (h1 : isResolved s.resolved w1 = false)
    (h2 : isResolved s.resolved w2 = false)
    (ht1 : w1 ∉ s.timers) :
    (runFrom [.wait w1 0, .wait w2 0, .deliver m] s).resolved
        = s.resolved ++ [(w2, .msg m)] ∧
    isResolved (runFrom [.wait w1 0, .wait w2 0, .deliver m] s).resolved w1
        = false ∧
    ∀ evs : List Ev, (∀ t, Ev.wait w1 t ∉ evs) →
      isResolved
        (runFrom evs (runFrom [.wait w1 0, .wait w2 0, .deliver m] s)).resolved w1
        = false := by
  have hs1 : step s (.wait w1 0) = { s with waiter := some w1 } := by
    simp [step, hp]
  have hs2 : step { s with waiter := some w1 } (.wait w2 0)
      = { s with waiter := some w2 } := by
    simp [step, hp]
  have hrun : runFrom [Ev.wait w1 0, Ev.wait w2 0, Ev.deliver m] s
      = { s with waiter := none, resolved := s.resolved ++ [(w2, .msg m)] } := by
    rw [runFrom_cons, hs1, runFrom_cons, hs2, runFrom_cons, runFrom_nil]
    simp [step, resolveWith, h2]
  rw [hrun]
  have hw2w1 : (w2 == w1) = false := by
    simpa using fun hc => hne hc.symm
  have hres1 : isResolved (s.resolved ++ [(w2, .msg m)]) w1 = false := by
    rw [isResolved_append_single, h1, hw2w1]
    rfl
  refine ⟨rfl, hres1, ?_⟩
  intro evs hevs
  exact runFrom_preserves_unresolved evs _ w1 hres1 (by simp) ht1 hevs

/-- Witness for C5: wait 1 stays unresolved even after a further delivery. -/
theorem c5_second_wait_overwrites_first_witness :
    isResolved (runFrom [Ev.deliver mB]
        (run [Ev.wait 1 0, Ev.wait 2 0, Ev.deliver mA])).resolved 1 = false := by
  have h := (c5_second_wait_overwrites_first initState 1 2 mA rfl rfl
    (by norm_num) rfl rfl (by simp [initState])).2.2 [Ev.deliver mB]
    (by intro t; simp)
  simpa [run, initState] using h

/-- C6: in every state reachable from gateway startup, `pending` is non-empty
only if `waiter` is unset. -/
theorem c6_pending_nonempty_implies_no_waiter (evs : List Ev) :
    (run evs).pending ≠ [] → (run evs).waiter = none := by
  have key : ∀ (l : List Ev) (s : GwState),
      (s.pending ≠ [] → s.waiter = none) →
      ((runFrom l s).pending ≠ [] → (runFrom l s).waiter = none) := by
    intro l
    induction l with
    | nil => intro s h; exact h
    | cons e rest ih =>
      intro s h
      rw [runFrom_cons]
      exact ih (step s e) (step_preserves_inv s e h)
  exact key evs initState (fun _ => rfl)

/-- Witness for C6: a state with a queued message has no waiter. -/
theorem c6_pending_nonempty_implies_no_waiter_witness :
    (run [Ev.deliver mA]).waiter = none :=
  c6_pending_nonempty_implies_no_waiter [Ev.deliver mA] (by decide)

/-- C7: `send_reply` splits the message into consecutive chunks of at most
1900 units, sent sequentially in list order; their concatenation equals the
original message, and a 5000-unit message yields exactly 3 chunks. -/
theorem c7_chunked_send (message : List Char) :
    (chunkMessage message).flatten = message ∧
    (∀ c ∈ chunkMessage message, c.length ≤ 1900) ∧
    (message.length = 5000 → (chunkMessage message).length = 3) := by
  refine ⟨chunkMessage_join message, chunkMessage_chunk_le message, ?_⟩
  intro h5
  rw [chunkMessage_length, h5]

/-- Witness for C7 on a concrete 5000-unit message. -/
theorem c7_chunked_send_witness :
    (chunkMessage (List.replicate 5000 'x')).length = 3 :=
  (c7_chunked_send (List.replicate 5000 'x')).2.2 (by rw [List.length_replicate])

/-- C8: a wait arriving while `pending` is non-empty returns the oldest
pending message immediately — no suspension, no waiter registration — and the
queue length drops by exactly one. -/
theorem c8_wait_pops_oldest (s : GwState) (w t : Nat) (m : MessageData)
    (rest : List MessageData) (hp : s.pending = m :: rest) :
    step s (.wait w t)
        = { s with pending := rest, resolved := s.resolved ++ [(w, .msg m)] } ∧
    (step s (.wait w t)).pending.length + 1 = s.pending.length := by
  have h : step s (.wait w t)
      = { s with pending := rest, resolved := s.resolved ++ [(w, .msg m)] } := by
    simp [step, hp]
  refine ⟨h, ?_⟩
  rw [h, hp]
  simp

/-- Witness for C8 against a queue holding one message. -/
theorem c8_wait_pops_oldest_witness :
    step { pending := [mA], waiter := none, timers := [], resolved := [] }
        (Ev.wait 4 0)
      = { pending := [], waiter := none, timers := [],
          resolved := [(4, WaitResult.msg mA)] } := by
  have h := (c8_wait_pops_oldest
    { pending := [mA], waiter := none, timers := [], resolved := [] }
    4 0 mA [] rfl).1
  simpa using h

/-- C9: whenever a supervised child exits, the handler schedules exactly one
new spawn attempt after the fixed 5-second delay, and performing that spawn
increments the child's restart count by one — for the primary child and the
overwatcher alike. -/
theorem c9_exit_schedules_one_restart (s : DaemonState) (code : Int) :
    (onClaudeClose code s).claudeRestartTimers
        = s.claudeRestartTimers ++ [RESTART_DELAY_MS] ∧
    RESTART_DELAY_MS = 5000 ∧
    (fireClaudeRestartTimer (onClaudeClose code s)).claude.restartCount
        = s.claude.restartCount + 1 ∧
    (onRomillyExit code s).romillyRestartTimers
        = s.romillyRestartTimers ++ [RESTART_DELAY_MS] ∧
    (fireRomillyRestartTimer (onRomillyExit code s)).romilly.restartCount
        = s.romilly.restartCount + 1 :=
  ⟨rfl, rfl, rfl, rfl, rfl⟩

/-- C10: execution exhibiting the stale-timer bug.  Wait 1 (timeout 5) is
resolved by a delivery; wait 2 then registers; wait 1's timer fires, finds
the waiter reference non-null and clears it — orphaning wait 2 — while its
own `resolve` is a no-op on the already-settled wait 1.  Wait 2's own timer
then finds the slot empty and does nothing, and a later delivery is queued
instead of resolving wait 2: wait 2 is never resolved by any later activity
that does not reuse its call id. -/
theorem c10_stale_timer_orphans_second_wait :
    run [Ev.wait 1 5, Ev.deliver mA, Ev.wait 2 9, Ev.fire 1, Ev.fire 2,
        Ev.deliver mB]
      = { pending := [mB], waiter := none, timers := [],
          resolved := [(1, WaitResult.msg mA)] } ∧
    ∀ evs : List Ev, (∀ t, Ev.wait 2 t ∉ evs) →
      isResolved (runFrom evs
          (run [Ev.wait 1 5, Ev.deliver mA, Ev.wait 2 9, Ev.fire 1, Ev.fire 2,
            Ev.deliver mB])).resolved 2 = false := by
  have hrun : run [Ev.wait 1 5, Ev.deliver mA, Ev.wait 2 9, Ev.fire 1,
      Ev.fire 2, Ev.deliver mB]
      = { pending := [mB], waiter := none, timers := [],
          resolved := [(1, WaitResult.msg mA)] } := by
    decide
  refine ⟨hrun, ?_⟩
  intro evs hevs
  rw [hrun]
  exact runFrom_preserves_unresolved evs _ 2 (by decide) (by decide)
    (by decide) hevs

/-- Witness for C10: even a further delivery never resolves wait 2. -/
theorem c10_stale_timer_orphans_second_wait_witness :
    isResolved (runFrom [Ev.deliver mA]
        (run [Ev.wait 1 5, Ev.deliver mA, Ev.wait 2 9, Ev.fire 1, Ev.fire 2,
          Ev.deliver mB])).resolved 2 = false :=
  c10_stale_timer_orphans_second_wait.2 [Ev.deliver mA] (by intro t; simp)

end Wired
